import Mathlib

/-!
Verification of the entropy-acquisition interface of `sys/random.h`.

The source file declares the kernel entry points `getrandom` and `getentropy`
together with the flag macros `GRND_NONBLOCK`, `GRND_RANDOM` and
`GRND_INSECURE`.  The module logic (`fill`, `fillExact`) specified in the
design document is not present under `src/`; it is modelled here from the
specification's words, while the flag constants and the documented
`getrandom`/`getentropy` return conventions are taken from the source header.
-/

namespace SysRandom

/-- Decidable equality for `Except`, needed to evaluate results by `decide`. -/
instance exceptDecEq {ε α : Type} [DecidableEq ε] [DecidableEq α] :
    DecidableEq (Except ε α) := fun x y =>
  match x, y with
  | .ok a, .ok b =>
    if h : a = b then isTrue (by rw [h]) else isFalse (by simp [h])
  | .error a, .error b =>
    if h : a = b then isTrue (by rw [h]) else isFalse (by simp [h])
  | .ok _, .error _ => isFalse (by simp)
  | .error _, .ok _ => isFalse (by simp)

/-- Flag constant from the source header: `#define GRND_NONBLOCK 0x01`. -/
def GRND_NONBLOCK : Nat := 0x01

/-- Flag constant from the source header: `#define GRND_RANDOM 0x02`. -/
def GRND_RANDOM : Nat := 0x02

/-- Flag constant from the source header: `#define GRND_INSECURE 0x04`. -/
def GRND_INSECURE : Nat := 0x04

/-- Modelled from the spec: the `RequestFlags` set drawn from
{NonBlocking, UseRandomPool, AllowInsecure} (§3 DATA MODEL). -/
structure RequestFlags where
  nonBlocking : Bool
  useRandomPool : Bool
  allowInsecure : Bool
deriving DecidableEq

/-- Modelled from the spec: the empty flag set (blocking, secure). -/
def noFlags : RequestFlags := ⟨false, false, false⟩

/-- Modelled from the spec: the boundary bit encoding of a flag set, using the
spec's wire values NonBlocking = 0x01, UseRandomPool = 0x02,
AllowInsecure = 0x04 (§6 EXTERNAL INTERFACES). -/
def RequestFlags.toBits (f : RequestFlags) : Nat :=
  (if f.nonBlocking then 0x01 else 0) +
  (if f.useRandomPool then 0x02 else 0) +
  (if f.allowInsecure then 0x04 else 0)

/-- Modelled from the spec: the error taxonomy of §7 ERROR HANDLING DESIGN. -/
inductive ErrorKind where
  | InvalidArgument
  | WouldBlock
  | CapabilityMissing
  | Interrupted
  | RetriesExhausted
deriving DecidableEq

/-- Modelled from the spec: the final, non-interruption outcome of one kernel
request — either some bytes were produced (possibly fewer than requested) or
the entropy pool was not ready. -/
inductive KernelFinal where
  | wrote (bytes : List Nat)
  | notReady
deriving DecidableEq

/-- Modelled from the spec: the observable behaviour of one kernel request —
a finite number of interruption events (each hitting before any byte is
produced) followed by a final outcome. -/
structure KernelCall where
  interruptions : Nat
  outcome : KernelFinal

/-- Modelled from the spec: the kernel randomness facility, as a runtime
capability bit plus a stream of per-request behaviours indexed by the
request number. -/
structure Kernel where
  available : Bool
  behavior : Nat → KernelCall

/-- Modelled from the spec: writing the byte list `w` into `buf` at offset
`off`, leaving the rest of the buffer alone. -/
def writeBytes (buf : List Nat) (off : Nat) (w : List Nat) : List Nat :=
  buf.take off ++ w ++ buf.drop (off + w.length)

/-- Modelled from the spec: handling of the kernel's final outcome for a
request of `req` bytes at offset `off`.  A short write reports exactly how
many bytes were written (§4.1 item 1); an unready pool is `WouldBlock`. -/
def attemptOutcome (req : Nat) (buf : List Nat) (off : Nat) :
    KernelFinal → Except ErrorKind Nat × List Nat
  | .wrote bytes => (.ok (bytes.take req).length, writeBytes buf off (bytes.take req))
  | .notReady => (.error .WouldBlock, buf)

/-- Modelled from the spec: the interruption-retry loop of §4.1 item 2 —
retry automatically exactly once per interruption event, indefinitely,
unless `NonBlocking` is set, in which case interruption surfaces
immediately. -/
def retryLoop (flags : RequestFlags) (req : Nat) (buf : List Nat) (off : Nat)
    (o : KernelFinal) : Nat → Except ErrorKind Nat × List Nat
  | 0 => attemptOutcome req buf off o
  | n + 1 =>
    if flags.nonBlocking then (.error .Interrupted, buf)
    else retryLoop flags req buf off o n

/-- Modelled from the spec: `fill(buffer, length, flags) -> FillResult`
(§4.1).  Rejects the UseRandomPool/AllowInsecure combination at the
boundary, probes the kernel capability at call time, then performs one
kernel request with interruption retry.  The returned list is the buffer
after the call. -/
def fill (k : Kernel) (i : Nat) (buf : List Nat) (off len : Nat)
    (flags : RequestFlags) : Except ErrorKind Nat × List Nat :=
  if flags.useRandomPool && flags.allowInsecure then (.error .InvalidArgument, buf)
  else if k.available then
    retryLoop flags len buf off (k.behavior i).outcome (k.behavior i).interruptions
  else (.error .CapabilityMissing, buf)

/-- Modelled from the spec: the raw boundary view of `fill` (§6) — a
non-negative written count on success, a negative return on failure. -/
def fillRaw (k : Kernel) (i : Nat) (buf : List Nat) (off len : Nat)
    (flags : RequestFlags) : Int × List Nat :=
  match fill k i buf off len flags with
  | (.ok n, b) => ((n : Int), b)
  | (.error _, b) => (-1, b)

/-- Modelled from the spec: `fillExact`'s default retry ceiling of 1,000
iterations (§4.1). -/
def defaultRetryCeiling : Nat := 1000

/-- Modelled from the spec: the loop of `fillExact` — call `fill`, advance
the destination offset, stop when `len` bytes are written, a failure
propagates, or the retry ceiling (the fuel) is exhausted (§4.1).  Returns
the total number of bytes written together with the final buffer. -/
def fillExactLoop (k : Kernel) (flags : RequestFlags) (len : Nat) :
    Nat → Nat → Nat → List Nat → Except ErrorKind (Nat × List Nat)
  | 0, _, off, buf =>
    if len ≤ off then .ok (off, buf) else .error .RetriesExhausted
  | fuel + 1, i, off, buf =>
    if len ≤ off then .ok (off, buf)
    else
      match fill k i buf off (len - off) flags with
      | (.error e, _) => .error e
      | (.ok written, buf') => fillExactLoop k flags len fuel (i + 1) (off + written) buf'

/-- Modelled from the spec: `fillExact` with an explicit retry ceiling. -/
def fillExactWith (k : Kernel) (ceiling : Nat) (buf : List Nat) (len : Nat)
    (flags : RequestFlags) : Except ErrorKind (List Nat) :=
  Except.map (fun p => p.2) (fillExactLoop k flags len ceiling 0 0 buf)

/-- Modelled from the spec: `fillExact(buffer, length, flags)` (§4.1), the
convenience operation layered on `fill`, with the default retry ceiling. -/
def fillExact (k : Kernel) (buf : List Nat) (len : Nat)
    (flags : RequestFlags) : Except ErrorKind (List Nat) :=
  fillExactWith k defaultRetryCeiling buf len flags

/-- Modelled from the spec: a kernel with the same availability and outcomes
but no interruption events; used to express transparent interruption
recovery. -/
def noInterruptions (k : Kernel) : Kernel :=
  ⟨k.available, fun j => ⟨0, (k.behavior j).outcome⟩⟩

/-- Modelled from the spec: `getentropy` as documented in the source header —
"Write LENGTH bytes of randomness starting at BUFFER.  Return 0 on success
or -1 on error."; all-or-nothing, built over the blocking secure path. -/
def getentropy (k : Kernel) (buf : List Nat) (len : Nat) : Int × List Nat :=
  match fillExact k buf len noFlags with
  | .ok buf' => (0, buf')
  | .error _ => (-1, buf)

/-- Modelled from the spec: the process state visible to a call — the
caller-supplied buffer plus every other mutable location (global error
slots, caches, descriptor tables), addressed by `Nat`. -/
structure ProcState where
  buffer : List Nat
  globals : Nat → Nat

/-- Modelled from the spec: `fill` as an action on the whole process state. -/
def fillProc (k : Kernel) (i off len : Nat) (flags : RequestFlags)
    (s : ProcState) : Except ErrorKind Nat × ProcState :=
  ((fill k i s.buffer off len flags).1,
   ⟨(fill k i s.buffer off len flags).2, s.globals⟩)

/-- Modelled from the spec: `fillExact` as an action on the whole process
state. -/
def fillExactProc (k : Kernel) (len : Nat) (flags : RequestFlags)
    (s : ProcState) : Except ErrorKind Unit × ProcState :=
  match fillExact k s.buffer len flags with
  | .ok buf' => (.ok (), ⟨buf', s.globals⟩)
  | .error e => (.error e, s)

/-- A concrete kernel that answers every request with a single byte. -/
def oneByteKernel : Kernel := ⟨true, fun j => ⟨0, .wrote [(j + 1) % 256]⟩⟩

/-- A concrete kernel that fully answers every request with four bytes. -/
def fourByteKernel : Kernel := ⟨true, fun _ => ⟨0, .wrote [9, 8, 7, 6]⟩⟩

/-- A concrete kernel whose every request is interrupted once before
producing two bytes. -/
def intrKernel : Kernel := ⟨true, fun _ => ⟨1, .wrote [1, 2]⟩⟩

/-- A concrete platform stub with the kernel facility absent. -/
def absentKernel : Kernel := ⟨false, fun _ => ⟨0, .notReady⟩⟩

lemma length_writeBytes (buf w : List Nat) (off : Nat)
    (h : off + w.length ≤ buf.length) :
    (writeBytes buf off w).length = buf.length := by
  simp [writeBytes]
  omega

lemma drop_writeBytes (buf w : List Nat) (off m : Nat)
    (h1 : off + w.length ≤ m) (h2 : off + w.length ≤ buf.length) :
    (writeBytes buf off w).drop m = buf.drop m := by
  have hoff : (buf.take off).length = off := List.length_take_of_le (by omega)
  have e1 : (buf.take off).drop m = [] :=
    List.drop_eq_nil_of_le (by rw [hoff]; omega)
  have e2 : w.drop (m - (buf.take off).length) = [] :=
    List.drop_eq_nil_of_le (by rw [hoff]; omega)
  have hlen2 : (buf.take off ++ w).length = off + w.length := by
    simp [hoff]
  have e3 : (buf.drop (off + w.length)).drop (m - (buf.take off ++ w).length)
      = buf.drop m := by
    rw [List.drop_drop, hlen2]
    congr 1
    omega
  unfold writeBytes
  rw [List.drop_append_eq_append_drop, List.drop_append_eq_append_drop, e1, e2, e3,
    List.nil_append, List.nil_append]

lemma retryLoop_blocking (flags : RequestFlags) (req : Nat) (buf : List Nat)
    (off : Nat) (o : KernelFinal) (hnb : flags.nonBlocking = false) :
    ∀ n, retryLoop flags req buf off o n = attemptOutcome req buf off o := by
  intro n
  induction n with
  | zero => rfl
  | succ n ih => simp [retryLoop, hnb, ih]

lemma retryLoop_ok (flags : RequestFlags) (req : Nat) (buf : List Nat)
    (off : Nat) (o : KernelFinal) (m : Nat) (buf₁ : List Nat) :
    ∀ n, retryLoop flags req buf off o n = (.ok m, buf₁) →
      ∃ w : List Nat, w.length = m ∧ m ≤ req ∧ buf₁ = writeBytes buf off w := by
  intro n
  induction n with
  | zero =>
    intro h
    cases o with
    | wrote bytes =>
      simp only [retryLoop, attemptOutcome, Prod.mk.injEq, Except.ok.injEq] at h
      refine ⟨bytes.take req, h.1, ?_, h.2.symm⟩
      rw [← h.1]
      exact List.length_take_le req bytes
    | notReady => simp [retryLoop, attemptOutcome] at h
  | succ n ih =>
    intro h
    by_cases hnb : flags.nonBlocking = true
    · simp [retryLoop, hnb] at h
    · simp only [retryLoop, hnb, if_false, Bool.not_eq_true] at h
      exact ih h

lemma retryLoop_error_buf (flags : RequestFlags) (req : Nat) (buf : List Nat)
    (off : Nat) (o : KernelFinal) (e : ErrorKind) :
    ∀ n, (retryLoop flags req buf off o n).1 = .error e →
      (retryLoop flags req buf off o n).2 = buf := by
  intro n
  induction n with
  | zero =>
    intro h
    cases o with
    | wrote bytes => simp [retryLoop, attemptOutcome] at h
    | notReady => rfl
  | succ n ih =>
    intro h
    by_cases hnb : flags.nonBlocking = true
    · simp [retryLoop, hnb]
    · simp only [retryLoop, hnb, if_false, Bool.not_eq_true] at h ⊢
      exact ih h

lemma fill_ok (k : Kernel) (i : Nat) (buf : List Nat) (off req : Nat)
    (flags : RequestFlags) (m : Nat) (buf₁ : List Nat)
    (h : fill k i buf off req flags = (.ok m, buf₁)) :
    ∃ w : List Nat, w.length = m ∧ m ≤ req ∧ buf₁ = writeBytes buf off w := by
  unfold fill at h
  by_cases h1 : (flags.useRandomPool && flags.allowInsecure) = true
  · simp [h1] at h
  · by_cases h2 : k.available = true
    · simp only [h1, if_false, h2, if_true, Bool.not_eq_true] at h
      exact retryLoop_ok flags req buf off (k.behavior i).outcome m buf₁
        (k.behavior i).interruptions h
    · simp [h1, h2] at h

lemma fill_error_buf (k : Kernel) (i : Nat) (buf : List Nat) (off req : Nat)
    (flags : RequestFlags) (e : ErrorKind)
    (h : (fill k i buf off req flags).1 = .error e) :
    (fill k i buf off req flags).2 = buf := by
  unfold fill at h ⊢
  by_cases h1 : (flags.useRandomPool && flags.allowInsecure) = true
  · simp [h1]
  · by_cases h2 : k.available = true
    · simp only [h1, if_false, h2, if_true, Bool.not_eq_true] at h ⊢
      exact retryLoop_error_buf flags req buf off (k.behavior i).outcome e
        (k.behavior i).interruptions h
    · simp [h1, h2]

lemma fill_wrote (k : Kernel) (i : Nat) (buf : List Nat) (off req : Nat)
    (flags : RequestFlags) (bytes : List Nat)
    (hvalid : (flags.useRandomPool && flags.allowInsecure) = false)
    (hav : k.available = true)
    (hnb : flags.nonBlocking = false)
    (ho : (k.behavior i).outcome = .wrote bytes) :
    fill k i buf off req flags
      = (.ok (bytes.take req).length, writeBytes buf off (bytes.take req)) := by
  unfold fill
  rw [hvalid, if_neg (by simp), if_pos hav,
    retryLoop_blocking flags req buf off (k.behavior i).outcome hnb, ho]
  rfl

lemma fillExactLoop_ok_inv (k : Kernel) (flags : RequestFlags) (len : Nat) :
    ∀ fuel i off buf n buf',
      fillExactLoop k flags len fuel i off buf = .ok (n, buf') →
      off ≤ len → len ≤ buf.length →
      n = len ∧ buf'.length = buf.length ∧ buf'.drop len = buf.drop len := by
  intro fuel
  induction fuel with
  | zero =>
    intro i off buf n buf' h hoff hlen
    by_cases hc : len ≤ off
    · simp only [fillExactLoop, if_pos hc, Except.ok.injEq, Prod.mk.injEq] at h
      obtain ⟨h1, h2⟩ := h
      subst h2
      exact ⟨by omega, rfl, rfl⟩
    · simp [fillExactLoop, hc] at h
  | succ fuel ih =>
    intro i off buf n buf' h hoff hlen
    by_cases hc : len ≤ off
    · simp only [fillExactLoop, if_pos hc, Except.ok.injEq, Prod.mk.injEq] at h
      obtain ⟨h1, h2⟩ := h
      subst h2
      exact ⟨by omega, rfl, rfl⟩
    · simp only [fillExactLoop, hc, if_false] at h
      split at h
      · exact absurd h (by simp)
      · rename_i written buf₁ heq
        obtain ⟨w, hw, hwle, hb⟩ :=
          fill_ok k i buf off (len - off) flags written buf₁ heq
        have hlb : buf₁.length = buf.length := by
          rw [hb]
          exact length_writeBytes buf w off (by omega)
        have hdb : buf₁.drop len = buf.drop len := by
          rw [hb]
          exact drop_writeBytes buf w off len (by omega) (by omega)
        have hih := ih (i + 1) (off + written) buf₁ n buf' h (by omega)
          (by rw [hlb]; exact hlen)
        exact ⟨hih.1, by rw [hih.2.1, hlb], by rw [hih.2.2, hdb]⟩

lemma fillExactLoop_progress (k : Kernel) (flags : RequestFlags) (len : Nat)
    (hnb : flags.nonBlocking = false)
    (hvalid : (flags.useRandomPool && flags.allowInsecure) = false)
    (hav : k.available = true)
    (hgood : ∀ j, ∃ bytes, (k.behavior j).outcome = KernelFinal.wrote bytes ∧
      bytes ≠ []) :
    ∀ fuel i off buf, off ≤ len → len ≤ buf.length → len - off ≤ fuel →
      ∃ buf', fillExactLoop k flags len fuel i off buf = .ok (len, buf') ∧
        buf'.length = buf.length ∧ buf'.drop len = buf.drop len := by
  intro fuel
  induction fuel with
  | zero =>
    intro i off buf hoff hlen hfuel
    have hoe : off = len := by omega
    subst hoe
    exact ⟨buf, by simp [fillExactLoop], rfl, rfl⟩
  | succ fuel ih =>
    intro i off buf hoff hlen hfuel
    by_cases hc : len ≤ off
    · have hoe : off = len := by omega
      subst hoe
      exact ⟨buf, by simp [fillExactLoop], rfl, rfl⟩
    · obtain ⟨bytes, hb, hne⟩ := hgood i
      have hfill := fill_wrote k i buf off (len - off) flags bytes hvalid hav hnb hb
      have hwpos : 1 ≤ (bytes.take (len - off)).length := by
        rw [List.length_take]
        have hbp : 0 < bytes.length := List.length_pos.mpr hne
        omega
      have hwle : (bytes.take (len - off)).length ≤ len - off :=
        List.length_take_le _ _
      have hblen : (writeBytes buf off (bytes.take (len - off))).length
          = buf.length := length_writeBytes buf _ off (by omega)
      have hbdrop : (writeBytes buf off (bytes.take (len - off))).drop len
          = buf.drop len := drop_writeBytes buf _ off len (by omega) (by omega)
      obtain ⟨buf', hloop, hl, hd⟩ := ih (i + 1)
        (off + (bytes.take (len - off)).length)
        (writeBytes buf off (bytes.take (len - off)))
        (by omega) (by rw [hblen]; exact hlen) (by omega)
      refine ⟨buf', ?_, by rw [hl, hblen], by rw [hd, hbdrop]⟩
      have hstep : fillExactLoop k flags len (fuel + 1) i off buf
          = fillExactLoop k flags len fuel (i + 1)
            (off + (bytes.take (len - off)).length)
            (writeBytes buf off (bytes.take (len - off))) := by
        simp [fillExactLoop, hc, hfill]
      rw [hstep, hloop]

lemma fillExactWith_ok_shape (k : Kernel) (ceiling : Nat) (buf : List Nat)
    (len : Nat) (flags : RequestFlags) (buf' : List Nat)
    (h : fillExactWith k ceiling buf len flags = .ok buf')
    (hlen : len ≤ buf.length) :
    ∃ w : List Nat, w.length = len ∧ buf' = w ++ buf.drop len := by
  unfold fillExactWith at h
  cases hl : fillExactLoop k flags len ceiling 0 0 buf with
  | error e => rw [hl] at h; simp [Except.map] at h
  | ok p =>
    rw [hl] at h
    obtain ⟨n, bufr⟩ := p
    simp only [Except.map, Except.ok.injEq] at h
    subst h
    obtain ⟨hn, hlb, hdb⟩ := fillExactLoop_ok_inv k flags len ceiling 0 0 buf n
      bufr hl (Nat.zero_le _) hlen
    refine ⟨bufr.take len, ?_, ?_⟩
    · exact List.length_take_of_le (by omega)
    · rw [← hdb]
      exact (List.take_append_drop len bufr).symm

lemma fillExactWith_progress (k : Kernel) (ceiling : Nat) (buf : List Nat)
    (len : Nat) (flags : RequestFlags)
    (hnb : flags.nonBlocking = false)
    (hvalid : (flags.useRandomPool && flags.allowInsecure) = false)
    (hav : k.available = true)
    (hgood : ∀ j, ∃ bytes, (k.behavior j).outcome = KernelFinal.wrote bytes ∧
      bytes ≠ [])
    (hceil : len ≤ ceiling) (hlen : len ≤ buf.length) :
    ∃ w : List Nat, w.length = len ∧
      fillExactWith k ceiling buf len flags = .ok (w ++ buf.drop len) := by
  obtain ⟨buf', hloop, hl, hd⟩ := fillExactLoop_progress k flags len hnb hvalid
    hav hgood ceiling 0 0 buf (Nat.zero_le _) hlen (by omega)
  refine ⟨buf'.take len, List.length_take_of_le (by omega), ?_⟩
  unfold fillExactWith
  rw [hloop]
  simp only [Except.map, Except.ok.injEq]
  rw [← hd]
  exact (List.take_append_drop len buf').symm


/-- A kernel that answers a request of four bytes with only two. -/
def shortKernel : Kernel := ⟨true, fun _ => ⟨0, .wrote [4, 2]⟩⟩

/-- C1: for every length in [0, 64] and the empty flag set, `fillExact`
returns success, and on success exactly `length` bytes have been written
into the buffer (positions past `length` are untouched). -/
theorem c1_fillExact_success (k : Kernel) (buf : List Nat) (len : Nat)
    (hav : k.available = true)
    (hgood : ∀ j, ∃ bytes, (k.behavior j).outcome = KernelFinal.wrote bytes ∧
      bytes ≠ [])
    (hlen : len ≤ 64) (hbuf : len ≤ buf.length) :
    ∃ w : List Nat, w.length = len ∧
      fillExact k buf len noFlags = .ok (w ++ buf.drop len) := by
  unfold fillExact
  exact fillExactWith_progress k defaultRetryCeiling buf len noFlags rfl rfl
    hav hgood (by simp [defaultRetryCeiling]; omega) hbuf

/-- Witness for C1 at a concrete kernel, buffer and length. -/
theorem c1_fillExact_success_witness :
    ∃ w : List Nat, w.length = 3 ∧
      fillExact fourByteKernel [0, 0, 0, 0] 3 noFlags
        = .ok (w ++ ([0, 0, 0, 0] : List Nat).drop 3) :=
  c1_fillExact_success fourByteKernel [0, 0, 0, 0] 3 rfl
    (fun _ => ⟨[9, 8, 7, 6], rfl, by simp⟩) (by decide) (by decide)

/-- C2: for every buffer and length, `fill` with both `UseRandomPool` and
`AllowInsecure` set returns `InvalidArgument`; the module rejects the
combination rather than picking one of the two flags. -/
theorem c2_conflicting_flags (k : Kernel) (i : Nat) (buf : List Nat)
    (off len : Nat) (nb : Bool) :
    fill k i buf off len ⟨nb, true, true⟩ = (.error .InvalidArgument, buf) := by
  simp [fill]

/-- C3: interruption before any byte is written is retried automatically,
once per interruption event, when `NonBlocking` is not set (so the result
only depends on the final outcome, and a blocking `fill` never surfaces
`Interrupted`); with `NonBlocking` set, an interruption surfaces
immediately as the retryable failure `Interrupted`. -/
theorem c3_interruption_retry (k : Kernel) (i : Nat) (buf : List Nat)
    (off len : Nat) (flags : RequestFlags) :
    (flags.nonBlocking = false →
      fill k i buf off len flags = fill (noInterruptions k) i buf off len flags ∧
      (fill k i buf off len flags).1 ≠ .error .Interrupted) ∧
    (flags.nonBlocking = true →
      (flags.useRandomPool && flags.allowInsecure) = false →
      k.available = true → 0 < (k.behavior i).interruptions →
      fill k i buf off len flags = (.error .Interrupted, buf)) := by
  constructor
  · intro hnb
    constructor
    · unfold fill
      by_cases h1 : (flags.useRandomPool && flags.allowInsecure) = true
      · simp [h1]
      · by_cases h2 : k.available = true
        · simp only [h1, if_false, Bool.not_eq_true, noInterruptions, h2, if_true]
          rw [retryLoop_blocking flags len buf off _ hnb,
            retryLoop_blocking flags len buf off _ hnb]
        · simp [h1, h2, noInterruptions]
    · unfold fill
      by_cases h1 : (flags.useRandomPool && flags.allowInsecure) = true
      · simp [h1]
      · by_cases h2 : k.available = true
        · simp only [h1, if_false, Bool.not_eq_true, h2, if_true]
          rw [retryLoop_blocking flags len buf off _ hnb]
          cases (k.behavior i).outcome <;> simp [attemptOutcome]
        · simp [h1, h2]
  · intro hnb hvalid hav hintr
    obtain ⟨m, hm⟩ : ∃ m, (k.behavior i).interruptions = m + 1 :=
      ⟨(k.behavior i).interruptions - 1, by omega⟩
    unfold fill
    rw [hvalid, if_neg (by simp), if_pos hav, hm]
    simp [retryLoop, hnb]

/-- Witness for C3: a once-interrupted kernel is retried transparently by a
blocking call and surfaces `Interrupted` to a non-blocking call. -/
theorem c3_interruption_retry_witness :
    (fill intrKernel 0 [7, 7] 0 2 noFlags
      = fill (noInterruptions intrKernel) 0 [7, 7] 0 2 noFlags) ∧
    fill intrKernel 0 [7, 7] 0 2 ⟨true, false, false⟩
      = (.error .Interrupted, [7, 7]) :=
  ⟨((c3_interruption_retry intrKernel 0 [7, 7] 0 2 noFlags).1 rfl).1,
   (c3_interruption_retry intrKernel 0 [7, 7] 0 2 ⟨true, false, false⟩).2
     rfl rfl rfl (by decide)⟩

/-- C4: when the kernel returns fewer bytes than requested, `fill` returns a
success result carrying exactly the number of bytes actually written and
does not loop to fill the remainder; at the boundary this is a non-negative
written count, a negative return being reserved for failure. -/
theorem c4_short_write (k : Kernel) (i : Nat) (buf : List Nat) (off len : Nat)
    (flags : RequestFlags) (bytes : List Nat)
    (hvalid : (flags.useRandomPool && flags.allowInsecure) = false)
    (hav : k.available = true)
    (hb : k.behavior i = ⟨0, .wrote bytes⟩)
    (hshort : bytes.length ≤ len) :
    fill k i buf off len flags = (.ok bytes.length, writeBytes buf off bytes) ∧
    (fillRaw k i buf off len flags).1 = (bytes.length : Int) ∧
    0 ≤ (fillRaw k i buf off len flags).1 ∧
    (∀ (k₂ : Kernel) (i₂ : Nat) (buf₂ : List Nat) (off₂ len₂ : Nat)
      (flags₂ : RequestFlags) (e : ErrorKind),
      (fill k₂ i₂ buf₂ off₂ len₂ flags₂).1 = .error e →
      (fillRaw k₂ i₂ buf₂ off₂ len₂ flags₂).1 = -1) := by
  have hfill : fill k i buf off len flags
      = (.ok bytes.length, writeBytes buf off bytes) := by
    unfold fill
    rw [hvalid, if_neg (by simp), if_pos hav, hb]
    simp only [retryLoop, attemptOutcome, List.take_of_length_le hshort]
  refine ⟨hfill, ?_, ?_, ?_⟩
  · unfold fillRaw
    rw [hfill]
  · unfold fillRaw
    rw [hfill]
    exact Int.ofNat_nonneg _
  · intro k₂ i₂ buf₂ off₂ len₂ flags₂ e he
    unfold fillRaw
    cases hres : fill k₂ i₂ buf₂ off₂ len₂ flags₂ with
    | mk r b =>
      rw [hres] at he
      cases r with
      | error e' => rfl
      | ok n => simp at he

/-- Witness for C4: a kernel writing two bytes against a request of four. -/
theorem c4_short_write_witness :
    fill shortKernel 0 [0, 0, 0, 0, 0] 0 4 noFlags
        = (.ok 2, writeBytes [0, 0, 0, 0, 0] 0 [4, 2]) ∧
    (fillRaw shortKernel 0 [0, 0, 0, 0, 0] 0 4 noFlags).1 = (2 : Int) ∧
    0 ≤ (fillRaw shortKernel 0 [0, 0, 0, 0, 0] 0 4 noFlags).1 ∧
    (∀ (k₂ : Kernel) (i₂ : Nat) (buf₂ : List Nat) (off₂ len₂ : Nat)
      (flags₂ : RequestFlags) (e : ErrorKind),
      (fill k₂ i₂ buf₂ off₂ len₂ flags₂).1 = .error e →
      (fillRaw k₂ i₂ buf₂ off₂ len₂ flags₂).1 = -1) :=
  c4_short_write shortKernel 0 [0, 0, 0, 0, 0] 0 4 noFlags [4, 2]
    rfl rfl rfl (by decide)

/-- C5: `fillExact` terminates with success once `length` bytes are written,
propagates failures, and otherwise stops at the retry ceiling with
`RetriesExhausted`; the default ceiling is 1,000 iterations.  With a
one-byte-per-call kernel a ceiling of 3 fails with `RetriesExhausted`
for `length = 10`, while a sufficient ceiling completes. -/
theorem c5_fillExact_termination (k : Kernel) (buf : List Nat)
    (len ceiling : Nat) (flags : RequestFlags)
    (hnb : flags.nonBlocking = false)
    (hvalid : (flags.useRandomPool && flags.allowInsecure) = false)
    (hav : k.available = true)
    (hgood : ∀ j, ∃ bytes, (k.behavior j).outcome = KernelFinal.wrote bytes ∧
      bytes ≠ [])
    (hceil : len ≤ ceiling) (hbuf : len ≤ buf.length) :
    (∃ buf', fillExactWith k ceiling buf len flags = .ok buf') ∧
    fillExactWith oneByteKernel 3 (List.replicate 10 0) 10 noFlags
      = .error .RetriesExhausted ∧
    (∀ (k' : Kernel) (buf' : List Nat) (len' : Nat) (flags' : RequestFlags),
      fillExact k' buf' len' flags'
        = fillExactWith k' defaultRetryCeiling buf' len' flags') ∧
    defaultRetryCeiling = 1000 := by
  refine ⟨?_, by decide, fun _ _ _ _ => rfl, rfl⟩
  obtain ⟨w, hw, h⟩ := fillExactWith_progress k ceiling buf len flags hnb hvalid
    hav hgood hceil hbuf
  exact ⟨w ++ buf.drop len, h⟩

/-- Witness for C5: the one-byte kernel completes `length = 10` under the
default ceiling of 1,000, and fails with `RetriesExhausted` under a
ceiling of 3. -/
theorem c5_fillExact_termination_witness :
    (∃ buf', fillExactWith oneByteKernel 1000 (List.replicate 10 0) 10 noFlags
      = .ok buf') ∧
    fillExactWith oneByteKernel 3 (List.replicate 10 0) 10 noFlags
      = .error .RetriesExhausted ∧
    (∀ (k' : Kernel) (buf' : List Nat) (len' : Nat) (flags' : RequestFlags),
      fillExact k' buf' len' flags'
        = fillExactWith k' defaultRetryCeiling buf' len' flags') ∧
    defaultRetryCeiling = 1000 :=
  c5_fillExact_termination oneByteKernel (List.replicate 10 0) 10 1000 noFlags
    rfl rfl rfl (fun j => ⟨[(j + 1) % 256], rfl, by simp⟩) (by decide) (by decide)

/-- C6: with the kernel randomness facility unavailable, `fill` returns
`CapabilityMissing` (determined by the runtime capability check at call
time) and performs no fallback: the buffer is returned untouched. -/
theorem c6_capability_missing (k : Kernel) (i : Nat) (buf : List Nat)
    (off len : Nat) (flags : RequestFlags)
    (hav : k.available = false)
    (hvalid : (flags.useRandomPool && flags.allowInsecure) = false) :
    fill k i buf off len flags = (.error .CapabilityMissing, buf) := by
  simp [fill, hvalid, hav]

/-- Witness for C6 at the absent-kernel platform stub. -/
theorem c6_capability_missing_witness :
    fill absentKernel 0 [1, 2] 0 2 noFlags = (.error .CapabilityMissing, [1, 2]) :=
  c6_capability_missing absentKernel 0 [1, 2] 0 2 noFlags rfl rfl

/-- C7: whenever `fill` fails with `InvalidArgument` or `CapabilityMissing`,
the caller-supplied buffer is returned exactly as it was before the call. -/
theorem c7_untouched_on_reject (k : Kernel) (i : Nat) (buf : List Nat)
    (off len : Nat) (flags : RequestFlags) (e : ErrorKind)
    (he : (fill k i buf off len flags).1 = .error e)
    (_hkind : e = .InvalidArgument ∨ e = .CapabilityMissing) :
    (fill k i buf off len flags).2 = buf :=
  fill_error_buf k i buf off len flags e he

/-- Witness for C7 at the rejected flag combination. -/
theorem c7_untouched_on_reject_witness :
    (fill fourByteKernel 0 [3, 3] 0 1 ⟨false, true, true⟩).2 = [3, 3] :=
  c7_untouched_on_reject fourByteKernel 0 [3, 3] 0 1 ⟨false, true, true⟩
    .InvalidArgument (by decide) (Or.inl rfl)

/-- C8: the boundary flag encodings are exactly NonBlocking = 0x01,
UseRandomPool = 0x02 and AllowInsecure = 0x04, matching the header's
`GRND_NONBLOCK`, `GRND_RANDOM` and `GRND_INSECURE` bit values. -/
theorem c8_flag_encodings :
    RequestFlags.toBits ⟨true, false, false⟩ = GRND_NONBLOCK ∧
    RequestFlags.toBits ⟨false, true, false⟩ = GRND_RANDOM ∧
    RequestFlags.toBits ⟨false, false, true⟩ = GRND_INSECURE ∧
    GRND_NONBLOCK = 0x01 ∧ GRND_RANDOM = 0x02 ∧ GRND_INSECURE = 0x04 := by
  decide

/-- C9: `fill` and `fillExact` mutate nothing except the caller-supplied
buffer — every other mutable location is unchanged — and their results do
not depend on any state outside their arguments and the buffer, so any two
calls are independent. -/
theorem c9_stateless (k : Kernel) (i off len : Nat) (flags : RequestFlags)
    (b : List Nat) (g g' : Nat → Nat) :
    (fillProc k i off len flags ⟨b, g⟩).2.globals = g ∧
    (fillProc k i off len flags ⟨b, g⟩).1
      = (fillProc k i off len flags ⟨b, g'⟩).1 ∧
    (fillProc k i off len flags ⟨b, g⟩).2.buffer
      = (fillProc k i off len flags ⟨b, g'⟩).2.buffer ∧
    (fillExactProc k len flags ⟨b, g⟩).2.globals = g ∧
    (fillExactProc k len flags ⟨b, g⟩).1
      = (fillExactProc k len flags ⟨b, g'⟩).1 ∧
    (fillExactProc k len flags ⟨b, g⟩).2.buffer
      = (fillExactProc k len flags ⟨b, g'⟩).2.buffer := by
  cases hfe : fillExact k b len flags with
  | ok buf' => refine ⟨rfl, rfl, rfl, ?_, ?_, ?_⟩ <;> simp [fillExactProc, hfe]
  | error e => refine ⟨rfl, rfl, rfl, ?_, ?_, ?_⟩ <;> simp [fillExactProc, hfe]

/-- C10: `getentropy` is all-or-nothing — it returns 0 only when all `length`
requested bytes were written and -1 on error; it never reports a partial
byte count to the caller. -/
theorem c10_getentropy_all_or_nothing (k : Kernel) (buf : List Nat)
    (len : Nat) (hlen : len ≤ buf.length) :
    ((getentropy k buf len).1 = 0 ∨ (getentropy k buf len).1 = -1) ∧
    ((getentropy k buf len).1 = 0 →
      ∃ w : List Nat, w.length = len ∧
        (getentropy k buf len).2 = w ++ buf.drop len) ∧
    (∀ n : Nat, 0 < n → (getentropy k buf len).1 ≠ (n : Int)) := by
  cases hfe : fillExact k buf len noFlags with
  | ok buf' =>
    have hfe' : fillExactWith k defaultRetryCeiling buf len noFlags = .ok buf' :=
      hfe
    obtain ⟨w, hw, hshape⟩ := fillExactWith_ok_shape k defaultRetryCeiling buf
      len noFlags buf' hfe' hlen
    have hg : getentropy k buf len = (0, buf') := by
      simp [getentropy, hfe]
    refine ⟨Or.inl (by rw [hg]), fun _ => ⟨w, hw, ?_⟩, fun n hn => ?_⟩
    · rw [hg, ← hshape]
    · rw [hg]
      intro hcon
      have : (0 : Int) = (n : Int) := hcon
      omega
  | error e =>
    have hg : getentropy k buf len = (-1, buf) := by
      simp [getentropy, hfe]
    refine ⟨Or.inr (by rw [hg]), fun h0 => ?_, fun n hn => ?_⟩
    · rw [hg] at h0
      simp at h0
    · rw [hg]
      intro hcon
      have : (-1 : Int) = (n : Int) := hcon
      omega

/-- Witness for C10 at a concrete kernel and buffer. -/
theorem c10_getentropy_all_or_nothing_witness :
    ((getentropy fourByteKernel [0, 0, 0] 2).1 = 0 ∨
      (getentropy fourByteKernel [0, 0, 0] 2).1 = -1) ∧
    ((getentropy fourByteKernel [0, 0, 0] 2).1 = 0 →
      ∃ w : List Nat, w.length = 2 ∧
        (getentropy fourByteKernel [0, 0, 0] 2).2
          = w ++ ([0, 0, 0] : List Nat).drop 2) ∧
    (∀ n : Nat, 0 < n →
      (getentropy fourByteKernel [0, 0, 0] 2).1 ≠ (n : Int)) :=
  c10_getentropy_all_or_nothing fourByteKernel [0, 0, 0] 2 (by decide)
